import Mathlib

/-!
Verification of the `webenum` repository (src/webenum/dns.py and
src/webenum/main.py) against its natural-language specification.

The Python source is shallowly embedded: byte buffers are `List Nat`
(each entry a byte value), Python strings are `List Char`, fallible code
returns `Except PyExc`, and the unbounded recursion of
`read_domain_name` (dns.py lines 129-151) is made total with an explicit
fuel argument that models CPython's recursion limit: running out of fuel
corresponds to the interpreter raising `RecursionError`.
-/

/-- Exceptions the embedded Python code can raise.  `nonTermFuel` is not a
Python exception: it marks exhaustion of the step budget for the `while`
loop model (the loop itself cannot raise). -/
inductive PyExc where
  | indexError
  | structError
  | unicodeDecodeError
  | assertionError
  | valueError
  | notFoundError
  | runtimeTimeout
  | recursionError
  | nonTermFuel
  deriving DecidableEq, Repr

deriving instance DecidableEq for Except

/-- Python sequence indexing `buf[i]`: raises IndexError when out of range. -/
def listGet (buf : List Nat) (i : Nat) : Except PyExc Nat :=
  match buf[i]? with
  | some v => .ok v
  | none => .error .indexError

/-- Python list item assignment `xs[i] = v`: raises IndexError out of range. -/
def listSet (xs : List Nat) (i : Nat) (v : Nat) : Except PyExc (List Nat) :=
  if i < xs.length then .ok (xs.set i v) else .error .indexError

/-- Python slice `buf[i:i+n]`: silently truncates at the end of the list. -/
def pySlice (buf : List Nat) (i n : Nat) : List Nat :=
  (buf.drop i).take n

/-- `struct.unpack('!H', buf[i:i+2])`: big-endian 16-bit read; raises
struct.error when the slice has fewer than 2 bytes. -/
def unpack2 (buf : List Nat) (i : Nat) : Except PyExc Nat :=
  match pySlice buf i 2 with
  | [a, b] => .ok (a * 256 + b)
  | _ => .error .structError

/-- `struct.unpack('!I', buf[i:i+4])`: big-endian 32-bit read; raises
struct.error when the slice has fewer than 4 bytes. -/
def unpack4 (buf : List Nat) (i : Nat) : Except PyExc Nat :=
  match pySlice buf i 4 with
  | [a, b, c, d] => .ok (((a * 256 + b) * 256 + c) * 256 + d)
  | _ => .error .structError

/-- `bytes.decode('ascii')`: each byte must be < 128. -/
def asciiDecode : List Nat → Except PyExc (List Char)
  | [] => .ok []
  | b :: bs =>
    if b < 128 then do
      let rest ← asciiDecode bs
      .ok (Char.ofNat b :: rest)
    else .error .unicodeDecodeError

/-- Python name strings in this model are char lists. -/
abbrev Name := List Char

/-- dns.py lines 129-151, `read_domain_name(buf, pos, advance_i)`.

The source recurses without any bound on compression-pointer redirects;
`fuel` models the CPython recursion limit, and exhausting it returns
`recursionError` exactly as CPython raises `RecursionError` when the
pointer chain is deeper than the limit.  The returned `Nat` is the final
value of the nonlocal cursor `i` for `advance_i=True` callers (callers
with `advance_i=False` discard it, matching the source where such calls
leave `i` untouched). -/
def read_domain_name (resp : List Nat) :
    Nat → List Nat → Nat → Except PyExc (Name × Nat)
  | 0, _, _ => .error .recursionError
  | fuel + 1, buf, pos => do
    let b ← listGet buf pos
    if b &&& 0xc0 = 0xc0 then do
      let w ← unpack2 buf pos
      let name_i := w &&& 0x3fff
      let (nm, _) ← read_domain_name resp fuel resp name_i
      .ok (nm, pos + 2)
    else
      let length := b
      if length = 0 then
        .ok ([], pos + 1)
      else do
        let raw := pySlice buf (pos + 1) length
        let nm ← asciiDecode raw
        let (next, endPos) ← read_domain_name resp fuel buf (pos + 1 + length)
        if next = [] then
          .ok (nm, endPos)
        else
          .ok (nm ++ '.' :: next, endPos)

/-- dns.py Header fields relevant to `query`'s parse path (class Header,
`from_buf`, lines 26-38).  Fields are stored exactly as the bit
arithmetic of `from_buf` computes them. -/
structure DnsHeader where
  id : Nat
  flags : Nat
  qdcount : Nat
  ancount : Nat
  nscount : Nat
  arcount : Nat
  deriving DecidableEq, Repr

/-- `rcode = flags & 0xf` (dns.py line 37). -/
def DnsHeader.rcode (h : DnsHeader) : Nat := h.flags &&& 0xf

/-- `Header.from_buf(data)` with `data = resp[:Header.SIZE]`:
`struct.unpack('!HHHHHH', data)` raises struct.error unless `data` is
exactly 12 bytes. -/
def header_from_buf (data : List Nat) : Except PyExc DnsHeader :=
  match data with
  | [a0, a1, b0, b1, c0, c1, d0, d1, e0, e1, f0, f1] =>
    .ok ⟨a0 * 256 + a1, b0 * 256 + b1, c0 * 256 + c1,
         d0 * 256 + d1, e0 * 256 + e1, f0 * 256 + f1⟩
  | _ => .error .structError

/-- A resolved record as `query` returns it: `(owner_name, value)`. -/
abbrev RR := Name × Name

/-- Decimal rendering of one byte, as `'%i' % b`. -/
def decStr (n : Nat) : Name := Nat.toDigits 10 n

/-- dns.py line 166: `'%i.%i.%i.%i' % (data[0], data[1], data[2], data[3])`. -/
def ipv4Str (a b c d : Nat) : Name :=
  decStr a ++ '.' :: decStr b ++ '.' :: decStr c ++ '.' :: decStr d

/-- The sixteen payload bytes of an AAAA record read pairwise
(dns.py lines 172-174); raises IndexError when `data` is shorter. -/
def aaaaGroups (data : List Nat) : Except PyExc (List Nat) := do
  let g0h ← listGet data 0
  let g0l ← listGet data 1
  let g1h ← listGet data 2
  let g1l ← listGet data 3
  let g2h ← listGet data 4
  let g2l ← listGet data 5
  let g3h ← listGet data 6
  let g3l ← listGet data 7
  let g4h ← listGet data 8
  let g4l ← listGet data 9
  let g5h ← listGet data 10
  let g5l ← listGet data 11
  let g6h ← listGet data 12
  let g6l ← listGet data 13
  let g7h ← listGet data 14
  let g7l ← listGet data 15
  .ok [g0h * 256 + g0l, g1h * 256 + g1l, g2h * 256 + g2l, g3h * 256 + g3l,
       g4h * 256 + g4l, g5h * 256 + g5l, g6h * 256 + g6l, g7h * 256 + g7l]

/-- Lowercase hex rendering without leading zeros, as `'%x' % n`. -/
def hexStr (n : Nat) : Name := Nat.toDigits 16 n

/-- Leftmost longest run of zero groups: returns (start, length).
Mirrors CPython `ipaddress._compress_hextets`, which tracks the best run
with a strict comparison (so the first longest run wins). -/
def bestZeroRun (gs : List Nat) : Nat × Nat := Id.run do
  let mut idx := 0
  let mut curStart := 0
  let mut curLen := 0
  let mut bestStart := 0
  let mut bestLen := 0
  for g in gs do
    if g = 0 then
      if curLen = 0 then curStart := idx
      curLen := curLen + 1
      if curLen > bestLen then
        bestStart := curStart
        bestLen := curLen
    else
      curLen := 0
    idx := idx + 1
  return (bestStart, bestLen)

/-- Join name fragments with a separator character. -/
def joinSep (sep : Char) : List Name → Name
  | [] => []
  | [l] => l
  | l :: ls => l ++ sep :: joinSep sep ls

/-- dns.py lines 171-176: hex groups joined with ':' then canonicalised by
`ipaddress.ip_address(...).compressed` (RFC 5952: the leftmost longest run
of two or more zero groups collapses to '::').  The intermediate
full-text form always reparses to the same eight groups, so the net
effect is computed directly from the groups. -/
def ipv6Compressed (gs : List Nat) : Name :=
  let (s, l) := bestZeroRun gs
  if l ≤ 1 then joinSep ':' (gs.map hexStr)
  else
    joinSep ':' ((gs.take s).map hexStr) ++ ':' :: ':' ::
      joinSep ':' ((gs.drop (s + l)).map hexStr)

/-- dns.py lines 153-154: skip `qdcount` question names, threading the
cursor `i` through `read_domain_name` calls. -/
def skip_questions (resp payload : List Nat) (fuel : Nat) :
    Nat → Nat → Except PyExc Nat
  | 0, i => .ok i
  | n + 1, i => do
    let (_, i') ← read_domain_name resp fuel payload i
    skip_questions resp payload fuel n i'

/-- dns.py lines 157-177: the answer-parsing loop of `query`. -/
def parse_answers (resp payload : List Nat) (fuel : Nat) :
    Nat → Nat → List RR → Except PyExc (List RR)
  | 0, _, acc => .ok acc.reverse
  | n + 1, i, acc => do
    let (dn, i1) ← read_domain_name resp fuel payload i
    let type_ ← unpack2 payload i1
    let i2 := i1 + 2
    let _class ← unpack2 payload i2
    let i3 := i2 + 2
    let _ttl ← unpack4 payload i3
    let i4 := i3 + 4
    let data_len ← unpack2 payload i4
    let i5 := i4 + 2
    let data := pySlice payload i5 data_len
    let i6 := i5 + data_len
    if type_ = 0x01 then do
      let a ← listGet data 0
      let b ← listGet data 1
      let c ← listGet data 2
      let d ← listGet data 3
      parse_answers resp payload fuel n i6 ((dn, ipv4Str a b c d) :: acc)
    else if type_ = 0x02 then do
      let (ns, _) ← read_domain_name resp fuel data 0
      parse_answers resp payload fuel n i6 ((dn, ns) :: acc)
    else if type_ = 0x1c then do
      let gs ← aaaaGroups data
      parse_answers resp payload fuel n i6 ((dn, ipv6Compressed gs) :: acc)
    else
      parse_answers resp payload fuel n i6 acc

/-- dns.py lines 121-179: the response-parsing part of `query`, from the
received bytes `resp` to the result list (the socket I/O that produces
`resp` is the external transport boundary). -/
def query_parse (resp : List Nat) (fuel : Nat) : Except PyExc (List RR) := do
  let hdr ← header_from_buf (resp.take 12)
  if hdr.rcode = 0x03 then .error .notFoundError
  else if hdr.ancount = 0 then .ok []
  else do
    let payload := resp.drop 12
    let i ← skip_questions resp payload fuel hdr.qdcount 0
    parse_answers resp payload fuel hdr.ancount (i + 4) []

/-- Python `s.split('.')` on a char-list string: always non-empty, keeps
empty fragments (`''.split('.') == ['']`, `'a..b'.split('.') == ['a','','b']`). -/
def pySplitDot : List Char → List Name
  | [] => [[]]
  | c :: rest =>
    let r := pySplitDot rest
    if c = '.' then [] :: r
    else
      match r with
      | h :: t => (c :: h) :: t
      | [] => [[c]]

/-- `'.'.join(labels)`. -/
def joinDots (ls : List Name) : Name := joinSep '.' ls

/-- UTF-8 encoding of one character, as Python `str.encode('utf-8')`
produces it. -/
def utf8Char (c : Char) : List Nat :=
  let n := c.toNat
  if n < 0x80 then [n]
  else if n < 0x800 then [0xc0 + n / 64, 0x80 + n % 64]
  else if n < 0x10000 then [0xe0 + n / 4096, 0x80 + n / 64 % 64, 0x80 + n % 64]
  else [0xf0 + n / 262144, 0x80 + n / 4096 % 64, 0x80 + n / 64 % 64, 0x80 + n % 64]

/-- `sub.encode('utf-8')`. -/
def pyUtf8 (l : Name) : List Nat := l.flatMap utf8Char

/-- dns.py lines 89-92: the question-label loop.  `assert len(sub) <= 255`
raises AssertionError for a label longer than 255 characters; shorter
labels are length-prefixed with `struct.pack('B', len(sub))`.  Note the
source checks against 255, not the DNS limit of 63. -/
def encode_labels : List Name → Except PyExc (List Nat)
  | [] => .ok []
  | l :: ls =>
    if l.length > 255 then .error .assertionError
    else do
      let rest ← encode_labels ls
      .ok (l.length :: (pyUtf8 l ++ rest))

/-- dns.py lines 87-94: the `question` bytearray for a domain, the
length-prefixed labels of `domain.split('.')` followed by the zero-length
terminating segment. -/
def encode_name (domain : Name) : Except PyExc (List Nat) := do
  let q ← encode_labels (pySplitDot domain)
  .ok (q ++ [0])

/-- Bool to the 0/1 int Python's bitwise-or sees. -/
def bitOf (b : Bool) : Nat := if b then 1 else 0

/-- `struct.pack('!H', x)` for the in-range values `serialize` produces. -/
def pack16 (x : Nat) : List Nat := [x / 256 % 256, x % 256]

/-- dns.py lines 59-70, `Header.serialize` applied to `from_values`
fields: the flags word is assembled from disjoint bit fields and the six
16-bit words are packed big-endian. -/
def header_serialize (id_ : Nat) (qr : Bool) (opcode : Nat) (aa tc rd ra : Bool)
    (z rcode qdcount ancount nscount arcount : Nat) : List Nat :=
  let flags := (rcode &&& 0xf) + (z &&& 7) * 16 + bitOf ra * 128 + bitOf rd * 256 +
    bitOf tc * 512 + bitOf aa * 1024 + (opcode &&& 0xf) * 2048 + bitOf qr * 32768
  pack16 id_ ++ pack16 flags ++ pack16 qdcount ++ pack16 ancount ++
    pack16 nscount ++ pack16 arcount

/-- dns.py lines 79-109: the request bytes `query` builds before any
socket I/O.  `req_id = 1` on every call (line 80); the question section is
built (and can raise AssertionError) before the record-type dispatch,
which raises ValueError for an unsupported type. -/
def query_request (domain : Name) (queried_record : Name) :
    Except PyExc (List Nat) := do
  let hdr := header_serialize 1 false 0 false false true false 0 0 1 0 0 0
  let question ← encode_name domain
  let tb ←
    if queried_record = "AAAA".data then pure [0x00, 0x1c]
    else if queried_record = "A".data then pure [0x00, 0x01]
    else if queried_record = "NS".data then pure [0x00, 0x02]
    else .error .valueError
  .ok (hdr ++ question ++ tb ++ [0x00, 0x01])

/-! ## main.py: the subdomain scan -/

/-- main.py lines 21-26, `job_worker`: the argument models what
`dns.query(fqdn, ns, 'A')` returns or raises for that candidate (the
socket is the external boundary; a timed-out lookup is
`.error .runtimeTimeout`, dns.py line 119).  Only `dns.NotFoundError` is
caught and mapped to `None`; every other exception propagates. -/
def job_worker (q : Except PyExc (List RR)) : Except PyExc (Option (List RR)) :=
  match q with
  | .ok rs => .ok (some rs)
  | .error .notFoundError => .ok none
  | .error e => .error e

/-- Python `set(xs) == set(ys)` on address lists. -/
def sameSetB (xs ys : List Name) : Bool :=
  xs.all (fun x => decide (x ∈ ys)) && ys.all (fun y => decide (y ∈ xs))

/-- The result-collection loop of `exec_jobs` (main.py lines 47-67):
`job.result()` re-raises the first worker exception; `None` (no such
name), empty record lists and results whose address set equals the
wildcard set are dropped; everything else is kept in order. -/
def exec_jobs_go (wildcard : List Name) :
    List (Except PyExc (Option (List RR))) → List (List RR) →
    Except PyExc (List (List RR))
  | [], acc => .ok acc.reverse
  | r :: rest, acc => do
    let res ← r
    match res with
    | none => exec_jobs_go wildcard rest acc
    | some rs =>
      if rs.length = 0 then exec_jobs_go wildcard rest acc
      else if sameSetB (rs.map Prod.snd) wildcard then
        exec_jobs_go wildcard rest acc
      else exec_jobs_go wildcard rest (rs :: acc)

/-- main.py lines 39-68, `exec_jobs`, applied to the already-computed
worker results of one batch. -/
def exec_jobs (results : List (Except PyExc (Option (List RR))))
    (wildcard : List Name) : Except PyExc (List (List RR)) :=
  exec_jobs_go wildcard results []

/-- main.py lines 30-37: the wildcard probe.  The argument is what
`dns.query('*.' + path, '1.1.1.1', 'A')` returns or raises.  Only
`NotFoundError` yields the empty exclusion set; other exceptions
propagate and abort the scan. -/
def wildcard_addrs (probe : Except PyExc (List RR)) :
    Except PyExc (List Name) :=
  match probe with
  | .ok rs => .ok (rs.map Prod.snd)
  | .error .notFoundError => .ok []
  | .error e => .error e

/-- One `segments.append(wordlist[indices[seg_i]])` step followed by the
`if not complete_seg` advance (main.py lines 85-88).  `segments` is kept
newest-first, so the accumulated list is exactly `segments[::-1]`. -/
def seg_append (w : List Name) (k : Nat) (ind : List Nat) (segments : List Name)
    (complete : Bool) : Except PyExc (List Nat × List Name × Bool) := do
  let idx ← listGet ind k
  let wd ←
    match w[idx]? with
    | some v => Except.ok v
    | none => Except.error PyExc.indexError
  if complete then .ok (ind, wd :: segments, true)
  else do
    let ind' ← listSet ind k (idx + 1)
    .ok (ind', wd :: segments, true)

/-- Zero out `count` consecutive entries starting at index `j`. -/
def resetCount : List Nat → Nat → Nat → Except PyExc (List Nat)
  | ind, _, 0 => .ok ind
  | ind, j, n + 1 => do
    let ind' ← listSet ind j 0
    resetCount ind' (j + 1) n

/-- `for j in range(from_, to_): indices[j] = 0` (main.py lines 83-84). -/
def resetFrom (ind : List Nat) (from_ to_ : Nat) : Except PyExc (List Nat) :=
  resetCount ind from_ (to_ - from_)

/-- main.py lines 76-88: the inner `for seg_i in range(depth-1, -1, -1)`
loop.  The counter argument is `seg_i + 1`; a carry at `seg_i == 0` clears
`segments` and breaks. -/
def seg_loop (w : List Name) (depth : Nat) :
    Nat → List Nat → List Name → Bool → Except PyExc (List Nat × List Name)
  | 0, ind, segments, _ => .ok (ind, segments)
  | k + 1, ind, segments, complete => do
    let v ← listGet ind k
    if v = w.length then
      if k = 0 then .ok (ind, [])
      else do
        let cur ← listGet ind (k - 1)
        let ind1 ← listSet ind (k - 1) (cur + 1)
        let ind2 ← resetFrom ind1 k depth
        let (ind3, segments', complete') ← seg_append w k ind2 segments complete
        seg_loop w depth k ind3 segments' complete'
    else do
      let (ind1, segments', complete') ← seg_append w k ind segments complete
      seg_loop w depth k ind1 segments' complete'

/-- main.py lines 73-98 stripped to candidate production: each `while True`
iteration runs the segment loop and either terminates (empty `segments`)
or emits `'.'.join(segments[::-1])`.  `fuel` bounds the number of `while`
iterations; exhausting it returns the non-Python marker `nonTermFuel`. -/
def gen_loop (w : List Name) (depth : Nat) :
    Nat → List Nat → List Name → Except PyExc (List Name)
  | 0, _, _ => .error .nonTermFuel
  | fuel + 1, ind, acc => do
    let (ind', segments) ← seg_loop w depth depth ind [] false
    if segments.isEmpty then .ok acc.reverse
    else gen_loop w depth fuel ind' (joinDots segments :: acc)

/-- The ordered candidate names (`req_path` values) that
`scan_subdomains` generates, starting from
`indices = [0] * len(wordlist)` (main.py line 71 — note: sized by the
wordlist, not by `depth`). -/
def candidate_names (w : List Name) (depth fuel : Nat) :
    Except PyExc (List Name) :=
  gen_loop w depth fuel (List.replicate w.length 0) []

/-- The batching of main.py lines 95-101: jobs accumulate and a batch is
executed exactly when `len(jobs) == num_threads`; the final partial batch
runs after the loop. -/
def run_batches (wildcard : List Name) (threads : Nat) :
    List (Except PyExc (Option (List RR))) →
    List (Except PyExc (Option (List RR))) → List (List RR) →
    Except PyExc (List (List RR))
  | [], jobs, found => do
    let r ← exec_jobs jobs.reverse wildcard
    .ok (found ++ r)
  | j :: rest, jobs, found =>
    let jobs' := j :: jobs
    if jobs'.length = threads then do
      let r ← exec_jobs jobs'.reverse wildcard
      run_batches wildcard threads rest [] (found ++ r)
    else run_batches wildcard threads rest jobs' found

/-- main.py lines 14-103, `scan_subdomains`, with the resolver abstracted
as `resolve : fqdn ↦ result-or-exception of dns.query(fqdn, '1.1.1.1', 'A')`.
The asserts of lines 17-19 become AssertionError; the wildcard probe for
`'*.' + path` runs first; candidates are joined with `'.' + path`,
dispatched in batches of `num_threads`, and the collected hits
concatenated. -/
def scan_subdomains_model (resolve : Name → Except PyExc (List RR))
    (path : Name) (wordlist : List Name) (depth threads fuel : Nat) :
    Except PyExc (List (List RR)) :=
  if depth = 0 ∨ threads = 0 ∨ wordlist.length = 0 then .error .assertionError
  else do
    let wc ← wildcard_addrs (resolve ('*' :: '.' :: path))
    let names ← candidate_names wordlist depth fuel
    let jobs := names.map (fun nm => job_worker (resolve (nm ++ '.' :: path)))
    run_batches wc threads jobs [] []

/-! ## Concrete inputs used by the claim theorems -/

/-- Wordlist `["a"]`. -/
def wl1 : List Name := ["a"].map String.data

/-- Wordlist `["a", "b"]`. -/
def wl2 : List Name := ["a", "b"].map String.data

/-- Wordlist `["a", "b", "c"]`. -/
def wl3 : List Name := ["a", "b", "c"].map String.data

/-- A response whose single question name is a compression pointer at
offset 12 that points to offset 12, i.e. to itself: a pointer chain that
never decreases.  Header: id 1, flags 0, qdcount 1, ancount 1. -/
def cycResp : List Nat := [0, 1, 0, 0, 0, 1, 0, 1, 0, 0, 0, 0, 0xc0, 12]

/-- A 12-byte response that is only a header declaring qdcount = 7 and
ancount = 0, with no question bytes present. -/
def respQd7 : List Nat := [0, 9, 0, 0, 0, 7, 0, 0, 0, 0, 0, 0]

/-- A 12-byte response that is only a header declaring qdcount = 1 and
ancount = 1, with no question or answer bytes present. -/
def respAn1 : List Nat := [0, 9, 0, 0, 0, 1, 0, 1, 0, 0, 0, 0]

/-- A 13-byte response: header declaring qdcount = 0 and ancount = 1,
followed by a single stray byte — a truncated message that does contain
record bytes. -/
def resp13 : List Nat := [0, 9, 0, 0, 0, 0, 0, 1, 0, 0, 0, 0, 7]

/-- A response declaring qdcount = 0 and ancount = 1 whose single A
answer record declares an rdata length of `d1 * 256 + d2` but carries
only the 4 bytes `1.2.3.4`.  Layout after the header: 4 bytes skipped by
the unconditional `i += 4`, a root name, type A, class IN, ttl 0, the
declared length bytes, then the 4 data bytes. -/
def truncRecResp (d1 d2 : Nat) : List Nat :=
  [0, 1, 0, 0, 0, 0, 0, 1, 0, 0, 0, 0,
   0, 0, 0, 0, 0, 0, 1, 0, 1, 0, 0, 0, 0, d1, d2, 1, 2, 3, 4]

/-- Every finite recursion budget is exhausted on the self-pointer: the
decode of `cycResp` never produces a value, an error for any other
reason, or a bounded-redirect failure. -/
theorem cycResp_name_diverges :
    ∀ fuel, read_domain_name cycResp fuel cycResp 12 = .error .recursionError
  | 0 => rfl
  | fuel + 1 => by
    have ih := cycResp_name_diverges fuel
    simp only [cycResp] at ih ⊢
    simp [read_domain_name, listGet, unpack2, pySlice, Bind.bind, Except.bind,
      show (49164 &&& 16383 : Nat) = 12 from rfl, ih]

/-- Whole-message version of the divergence on `cycResp`. -/
theorem cycResp_parse_diverges :
    ∀ fuel, query_parse cycResp fuel = .error .recursionError
  | 0 => rfl
  | fuel + 1 => by
    have ih := cycResp_name_diverges fuel
    simp only [cycResp] at ih ⊢
    simp [query_parse, header_from_buf, DnsHeader.rcode, skip_questions,
      read_domain_name, listGet, unpack2, pySlice, Bind.bind, Except.bind,
      show (49164 &&& 16383 : Nat) = 12 from rfl, ih]

/-- C1: the spec demands that a compression-pointer chain that does not
strictly decrease in offset make decoding fail with `MalformedNameError`
after a bounded number of redirects, and that name decoding terminate on
every input.  The code has no such check and no such error: on the
self-pointer message `cycResp` the decoder redirects once per recursion
frame and, for every finite recursion budget `fuel` (CPython's recursion
limit included), the whole decode ends in `RecursionError` — it never
completes and never raises a dedicated malformed-name failure. -/
theorem C1_no_pointer_bound_recursion_unbounded (fuel : Nat) :
    query_parse cycResp fuel = .error .recursionError :=
  cycResp_parse_diverges fuel

/-- C2 counterexample: two messages whose declared counts exceed the
bytes actually present decode successfully instead of failing with any
truncation error.  `respQd7` declares seven questions with zero bytes
beyond the header (the `ancount == 0` early return skips question
validation), and `truncRecResp 0 100` declares a 100-byte rdata of which
only 4 bytes are present (the slice `payload[i:i+data_len]` silently
truncates and the record still parses as `1.2.3.4`). -/
theorem C2_counterexample_truncation_undetected :
    query_parse respQd7 5 = .ok [] ∧
      query_parse (truncRecResp 0 100) 5 = .ok [([], "1.2.3.4".data)] := by
  constructor
  · decide
  · decide

/-- C3 counterexample: for wordlist `["a","b"]` and depth 2 the generator
emits `a.a, a.b, b.a, b.b`, not the order `a.a, b.a, a.b, b.b` stated by
the claim. -/
theorem C3_counterexample_order :
    candidate_names wl2 2 20 = .ok (["a.a", "a.b", "b.a", "b.b"].map String.data) ∧
      (["a.a", "a.b", "b.a", "b.b"].map String.data) ≠
        (["a.a", "b.a", "a.b", "b.b"].map String.data) := by
  constructor
  · decide
  · decide

/-- C3 (amended): for wordlist `["a","b"]` and depth 2 the full ordered
output is `a.a, a.b, b.a, b.b` — rightmost position cycling fastest — a
total of 4 = 2^2 candidates. -/
theorem C3_candidates_ab_depth2 :
    candidate_names wl2 2 20 = .ok (["a.a", "a.b", "b.a", "b.b"].map String.data) := by
  decide

/-- C4: the claim says every non-empty wordlist and depth ≥ 1 yield
exactly `|wordlist|^depth` candidates with no skips or repeats, also when
depth exceeds the wordlist length.  The code allocates
`indices = [0] * len(wordlist)` (main.py line 71) although its own
comment says `indices[k]` is the index for the k-th of `depth` segments,
so wordlist `["a"]` with depth 2 raises IndexError instead of producing
`["a.a"]`; and for `["a","b","c"]` with depth 3 a carry that cascades
across two positions re-emits the tuple just produced, giving 29
candidates instead of 27 (with `b.a.a` and `c.a.a` each emitted twice). -/
theorem C4_generator_crash_and_duplicates :
    candidate_names wl1 2 5 = .error .indexError ∧
      candidate_names wl3 3 40 = .ok
        (["a.a.a", "a.a.b", "a.a.c", "a.b.a", "a.b.b", "a.b.c",
          "a.c.a", "a.c.b", "a.c.c", "b.a.a", "b.a.a", "b.a.b", "b.a.c",
          "b.b.a", "b.b.b", "b.b.c", "b.c.a", "b.c.b", "b.c.c", "c.a.a",
          "c.a.a", "c.a.b", "c.a.c", "c.b.a", "c.b.b", "c.b.c", "c.c.a",
          "c.c.b", "c.c.c"].map String.data) := by
  constructor
  · decide
  · decide

/-- A header buffer that is not exactly 12 bytes makes
`struct.unpack('!HHHHHH', ...)` raise struct.error. -/
theorem header_from_buf_wrong_len (data : List Nat) (h : data.length ≠ 12) :
    header_from_buf data = .error .structError := by
  unfold header_from_buf
  split
  · exfalso
    simp at h
  · rfl

/-- Reading a name from an empty payload raises IndexError at once. -/
theorem read_name_nil (resp : List Nat) (fuel pos : Nat) (hf : 1 ≤ fuel) :
    read_domain_name resp fuel [] pos = .error .indexError := by
  obtain ⟨f, rfl⟩ : ∃ f, fuel = f + 1 := ⟨fuel - 1, by omega⟩
  simp [read_domain_name, listGet, Bind.bind, Except.bind]

/-- Reading a name at any position past the end of the buffer raises
IndexError at once. -/
theorem read_name_oob (resp buf : List Nat) (fuel pos : Nat)
    (h : buf.length ≤ pos) (hf : 1 ≤ fuel) :
    read_domain_name resp fuel buf pos = .error .indexError := by
  obtain ⟨f, rfl⟩ : ∃ f, fuel = f + 1 := ⟨fuel - 1, by omega⟩
  have hnone : buf[pos]? = none := by
    simp [List.getElem?_eq_none_iff]
    omega
  simp [read_domain_name, listGet, hnone, Bind.bind, Except.bind]

/-- C2 (amended): the code defines no `TruncatedMessageError`, and
decoding does not reliably fail when declared counts exceed the bytes
present — see the counterexample for the two success modes (answer count
0 skips question validation; an over-declared rdata length is silently
truncated by slicing and the record still parses, proved in general by
the last conjunct below).  When the decoder does attempt a read beyond
the end of the buffer it fails with a low-level IndexError or
struct.error: a response shorter than the 12-byte header fails with
struct.error; a header-only response declaring answers fails with
IndexError, whatever question count it declares; and a response with up
to 4 bytes of record data after the header, no questions declared and at
least one answer declared fails with IndexError.  No read ever goes past
the buffer: the bounds-checked reads of the embedding mirror Python
indexing and slicing. -/
theorem C2_truncation_behavior :
    (∀ (resp : List Nat) (fuel : Nat), resp.length < 12 →
      query_parse resp fuel = .error .structError) ∧
    (∀ (resp : List Nat) (hdr : DnsHeader) (fuel : Nat), resp.length = 12 →
      header_from_buf resp = .ok hdr → hdr.rcode ≠ 3 → 1 ≤ hdr.ancount →
      1 ≤ fuel → query_parse resp fuel = .error .indexError) ∧
    (∀ (resp : List Nat) (hdr : DnsHeader) (fuel : Nat),
      header_from_buf (resp.take 12) = .ok hdr → hdr.rcode ≠ 3 →
      1 ≤ hdr.ancount → hdr.qdcount = 0 → resp.length ≤ 16 → 1 ≤ fuel →
      query_parse resp fuel = .error .indexError) ∧
    (∀ (d1 d2 fuel : Nat), 5 ≤ d1 * 256 + d2 → 1 ≤ fuel →
      query_parse (truncRecResp d1 d2) fuel =
        .ok [([], ipv4Str 1 2 3 4)]) := by
  refine ⟨?_, ?_, ?_, ?_⟩
  · intro resp fuel hlen
    have htk : (resp.take 12).length ≠ 12 := by
      simp [List.length_take]
      omega
    simp [query_parse, header_from_buf_wrong_len _ htk, Bind.bind, Except.bind]
  · intro resp hdr fuel hlen hhdr hrc han hf
    have htk : resp.take 12 = resp := List.take_of_length_le (by omega)
    have hdrop : resp.drop 12 = [] := by
      have : resp.length ≤ 12 := by omega
      simp [List.drop_eq_nil_iff.mpr this]
    obtain ⟨f, rfl⟩ : ∃ f, fuel = f + 1 := ⟨fuel - 1, by omega⟩
    obtain ⟨m, hm⟩ : ∃ m, hdr.ancount = m + 1 := ⟨hdr.ancount - 1, by omega⟩
    unfold query_parse
    rw [htk, hhdr]
    simp only [Bind.bind, Except.bind]
    rw [if_neg hrc, if_neg (by omega), hdrop]
    cases hq : hdr.qdcount with
    | zero =>
      simp only [skip_questions, hm]
      simp [parse_answers, read_name_nil resp (f + 1) 4 (by omega),
        Bind.bind, Except.bind]
    | succ q =>
      simp [skip_questions, read_name_nil resp (f + 1) 0 (by omega),
        Bind.bind, Except.bind]
  · intro resp hdr fuel hhdr hrc han hqd hlen hf
    obtain ⟨f, rfl⟩ : ∃ f, fuel = f + 1 := ⟨fuel - 1, by omega⟩
    obtain ⟨m, hm⟩ : ∃ m, hdr.ancount = m + 1 := ⟨hdr.ancount - 1, by omega⟩
    have hoob : read_domain_name resp (f + 1) (resp.drop 12) 4 =
        .error .indexError := by
      apply read_name_oob
      · simp
        omega
      · omega
    unfold query_parse
    rw [hhdr]
    simp only [Bind.bind, Except.bind]
    rw [if_neg hrc, if_neg (by omega), hqd]
    simp only [skip_questions, hm]
    simp [parse_answers, hoob, Bind.bind, Except.bind]
  · intro d1 d2 fuel hge hf
    obtain ⟨f, rfl⟩ : ∃ f, fuel = f + 1 := ⟨fuel - 1, by omega⟩
    have hdata : List.take (d1 * 256 + d2) [1, 2, 3, 4] = [1, 2, 3, 4] :=
      List.take_of_length_le (by simp; omega)
    simp [truncRecResp, query_parse, header_from_buf, DnsHeader.rcode,
      skip_questions, parse_answers, read_domain_name, listGet, unpack2,
      unpack4, pySlice, hdata, Bind.bind, Except.bind,
      show ((0 : Nat) &&& 15) = 0 from rfl,
      show ((0 : Nat) &&& 192) = 0 from rfl]

/-- C2 witness: the amended theorem applied to the 2-byte buffer
`[0, 9]` (struct.error), to `respAn1` (header-only, qdcount 1,
ancount 1: IndexError), to the 13-byte `resp13` (record byte present,
qdcount 0, ancount 1: IndexError), and to `truncRecResp 0 100` (declared
rdata 100 bytes, 4 present: decodes successfully). -/
theorem C2_truncation_witness :
    query_parse [0, 9] 5 = .error .structError ∧
      query_parse respAn1 5 = .error .indexError ∧
      query_parse resp13 5 = .error .indexError ∧
      query_parse (truncRecResp 0 100) 5 = .ok [([], ipv4Str 1 2 3 4)] := by
  refine ⟨?_, ?_, ?_, ?_⟩
  · exact C2_truncation_behavior.1 [0, 9] 5 (by decide)
  · exact C2_truncation_behavior.2.1 respAn1
      ⟨9, 0, 1, 1, 0, 0⟩ 5 (by decide) (by decide) (by decide) (by decide)
      (by decide)
  · exact C2_truncation_behavior.2.2.1 resp13
      ⟨9, 0, 0, 1, 0, 0⟩ 5 (by decide) (by decide) (by decide) (by decide)
      (by decide) (by decide)
  · exact C2_truncation_behavior.2.2.2 0 100 5 (by decide) (by decide)

/-- C10: `query` builds the request with the constant `req_id = 1`
(dns.py line 80): every successfully built request starts with the
big-endian transaction id bytes `[0, 1]`.  The request is a pure function
of the domain and record type — nothing per-call enters it — so two
invocations for the same arguments are byte-identical. -/
theorem C10_request_id_constant_one (domain queried_record : Name)
    (req : List Nat) (h : query_request domain queried_record = .ok req) :
    req.take 2 = [0, 1] := by
  unfold query_request at h
  cases hq : encode_name domain with
  | error e =>
    rw [hq] at h
    simp [Bind.bind, Except.bind] at h
  | ok question =>
    rw [hq] at h
    simp only [Bind.bind, Except.bind, pure, Except.pure] at h
    split at h
    · injection h with h'
      subst h'
      rfl
    · split at h
      · injection h with h'
        subst h'
        rfl
      · split at h
        · injection h with h'
          subst h'
          rfl
        · cases h

/-- C10 witness: the request for `example.com`, record type A. -/
theorem C10_request_id_witness :
    ∃ req, query_request "example.com".data "A".data = .ok req ∧
      req.take 2 = [0, 1] := by
  refine ⟨[0, 1, 1, 0, 0, 1, 0, 0, 0, 0, 0, 0, 7, 101, 120, 97, 109, 112,
    108, 101, 3, 99, 111, 109, 0, 0, 1, 0, 1], by decide, ?_⟩
  exact C10_request_id_constant_one "example.com".data "A".data _ (by decide)

/-- A 256-character label, above the source's 255-character assert. -/
def label256 : Name := List.replicate 256 'a'

/-- A 64-character label: above the DNS limit of 63, below the source's
assert threshold of 255. -/
def label64 : Name := List.replicate 64 'a'

/-- When every label respects the 255-character assert, the label loop
succeeds. -/
theorem encode_labels_ok (L : List Name) (h : ∀ l ∈ L, l.length ≤ 255) :
    ∃ b, encode_labels L = .ok b := by
  induction L with
  | nil => exact ⟨[], rfl⟩
  | cons l ls ih =>
    obtain ⟨b, hb⟩ := ih (fun x hx => h x (List.mem_cons_of_mem _ hx))
    refine ⟨l.length :: (pyUtf8 l ++ b), ?_⟩
    have hl : ¬ l.length > 255 := by
      have := h l (List.mem_cons_self _ _)
      omega
    simp [encode_labels, hl, hb, Bind.bind, Except.bind]

/-- A label longer than 255 characters trips `assert len(sub) <= 255`. -/
theorem encode_labels_long (L : List Name) (h : ∃ l ∈ L, 255 < l.length) :
    encode_labels L = .error .assertionError := by
  induction L with
  | nil => simp at h
  | cons l ls ih =>
    by_cases hl : l.length > 255
    · simp [encode_labels, hl]
    · obtain ⟨x, hx, hxl⟩ := h
      rcases List.mem_cons.mp hx with rfl | hx'
      · omega
      · have := ih ⟨x, hx', hxl⟩
        simp [encode_labels, hl, this, Bind.bind, Except.bind]

/-- C8 (amended): query construction checks each label of
`domain.split('.')` against 255 characters — not the DNS limit of 63 —
raising AssertionError past 255; with all labels within 255 characters an
unsupported record type raises ValueError, and a supported record type
(`A`, `AAAA` or `NS`) always yields request bytes.  In particular a
64-byte label is accepted, contradicting the claim's 63-byte bound (see
the counterexample). -/
theorem C8_encoding_error_conditions :
    (∀ (domain qr : Name), (∃ l ∈ pySplitDot domain, 255 < l.length) →
      query_request domain qr = .error .assertionError) ∧
    (∀ (domain qr : Name), (∀ l ∈ pySplitDot domain, l.length ≤ 255) →
      qr ≠ "A".data → qr ≠ "AAAA".data → qr ≠ "NS".data →
      query_request domain qr = .error .valueError) ∧
    (∀ (domain qr : Name), (∀ l ∈ pySplitDot domain, l.length ≤ 255) →
      (qr = "A".data ∨ qr = "AAAA".data ∨ qr = "NS".data) →
      ∃ req, query_request domain qr = .ok req) := by
  refine ⟨?_, ?_, ?_⟩
  · intro domain qr h
    simp [query_request, encode_name, encode_labels_long _ h,
      Bind.bind, Except.bind]
  · intro domain qr h hA hAAAA hNS
    obtain ⟨b, hb⟩ := encode_labels_ok _ h
    simp [query_request, encode_name, hb, Bind.bind, Except.bind,
      hA, hAAAA, hNS]
  · intro domain qr h hsupp
    obtain ⟨b, hb⟩ := encode_labels_ok _ h
    rcases hsupp with rfl | rfl | rfl
    · exact ⟨header_serialize 1 false 0 false false true false 0 0 1 0 0 0 ++
        (b ++ [0, 0, 1, 0, 1]), by
          simp [query_request, encode_name, hb, Bind.bind, Except.bind,
            pure, Except.pure]⟩
    · exact ⟨header_serialize 1 false 0 false false true false 0 0 1 0 0 0 ++
        (b ++ [0, 0, 28, 0, 1]), by
          simp [query_request, encode_name, hb, Bind.bind, Except.bind,
            pure, Except.pure]⟩
    · exact ⟨header_serialize 1 false 0 false false true false 0 0 1 0 0 0 ++
        (b ++ [0, 0, 2, 0, 1]), by
          simp [query_request, encode_name, hb, Bind.bind, Except.bind,
            pure, Except.pure]⟩

set_option maxRecDepth 40000 in
/-- C8 counterexample: a query for a single 64-character label encodes
successfully, although the claim requires an `EncodingError` for any
label over 63 bytes. -/
theorem C8_counterexample_64_byte_label_accepted :
    (query_request label64 "A".data).isOk = true := by decide

set_option maxRecDepth 40000 in
/-- C8 witness: the amended theorem applied to a 256-character label
(AssertionError), to the unsupported record type `TXT` (ValueError), and
to `a` with record type `NS` (success). -/
theorem C8_encoding_witness :
    query_request label256 "A".data = .error .assertionError ∧
      query_request "a".data "TXT".data = .error .valueError ∧
      ∃ req, query_request "a".data "NS".data = .ok req := by
  refine ⟨?_, ?_, ?_⟩
  · exact C8_encoding_error_conditions.1 label256 "A".data (by decide)
  · exact C8_encoding_error_conditions.2.1 "a".data "TXT".data (by decide)
      (by decide) (by decide) (by decide)
  · exact C8_encoding_error_conditions.2.2 "a".data "NS".data (by decide)
      (Or.inr (Or.inr rfl))

/-- A batch whose lookup outcomes are all successes or NXDOMAIN is
collected without raising, whatever the accumulator. -/
theorem exec_jobs_go_benign (outs : List (Except PyExc (List RR)))
    (W : List Name) :
    ∀ acc, (∀ o ∈ outs, o = .error .notFoundError ∨ ∃ rs, o = .ok rs) →
      ∃ res, exec_jobs_go W (outs.map job_worker) acc = .ok res := by
  induction outs with
  | nil => exact fun acc _ => ⟨acc.reverse, rfl⟩
  | cons o os ih =>
    intro acc h
    have hos := fun x hx => h x (List.mem_cons_of_mem _ hx)
    rcases h o (List.mem_cons_self _ _) with rfl | ⟨rs, rfl⟩
    · simpa [exec_jobs_go, job_worker, Bind.bind, Except.bind] using ih acc hos
    · by_cases h0 : rs.length = 0
      · simpa [exec_jobs_go, job_worker, Bind.bind, Except.bind, h0] using
          ih acc hos
      · by_cases hw : sameSetB (rs.map Prod.snd) W = true
        · simpa [exec_jobs_go, job_worker, Bind.bind, Except.bind, h0, hw]
            using ih acc hos
        · simpa [exec_jobs_go, job_worker, Bind.bind, Except.bind, h0, hw]
            using ih (rs :: acc) hos

/-- A batch whose outcomes are successes, NXDOMAIN or timeouts, with at
least one timeout, aborts with the timeout RuntimeError. -/
theorem exec_jobs_go_timeout (outs : List (Except PyExc (List RR)))
    (W : List Name) :
    ∀ acc, (∀ o ∈ outs, o = .error .notFoundError ∨ o = .error .runtimeTimeout ∨
        ∃ rs, o = .ok rs) →
      (.error .runtimeTimeout) ∈ outs →
      exec_jobs_go W (outs.map job_worker) acc = .error .runtimeTimeout := by
  induction outs with
  | nil => intro acc _ hmem; cases hmem
  | cons o os ih =>
    intro acc h hmem
    have hos := fun x hx => h x (List.mem_cons_of_mem _ hx)
    rcases h o (List.mem_cons_self _ _) with rfl | rfl | ⟨rs, rfl⟩
    · have hmem' : (Except.error PyExc.runtimeTimeout :
          Except PyExc (List RR)) ∈ os := by
        rcases List.mem_cons.mp hmem with heq | h'
        · exact absurd heq.symm (by simp)
        · exact h'
      simpa [exec_jobs_go, job_worker, Bind.bind, Except.bind] using
        ih acc hos hmem'
    · simp [exec_jobs_go, job_worker, Bind.bind, Except.bind]
    · have hmem' : (Except.error PyExc.runtimeTimeout :
          Except PyExc (List RR)) ∈ os := by
        rcases List.mem_cons.mp hmem with heq | h'
        · exact absurd heq.symm (by simp)
        · exact h'
      by_cases h0 : rs.length = 0
      · simpa [exec_jobs_go, job_worker, Bind.bind, Except.bind, h0] using
          ih acc hos hmem'
      · by_cases hw : sameSetB (rs.map Prod.snd) W = true
        · simpa [exec_jobs_go, job_worker, Bind.bind, Except.bind, h0, hw]
            using ih acc hos hmem'
        · simpa [exec_jobs_go, job_worker, Bind.bind, Except.bind, h0, hw]
            using ih (rs :: acc) hos hmem'

/-- C5 (amended): `job_worker` catches only `dns.NotFoundError`; an
NXDOMAIN outcome is filtered as a non-hit and a batch of successes and
NXDOMAINs always completes, but a lookup timeout — which `dns.query`
raises as `RuntimeError` (dns.py line 119) — re-raises from
`job.result()` and aborts the batch and with it the scan.  (Each
candidate is submitted to the pool exactly once; in the model every
candidate name contributes exactly one entry to the job list.) -/
theorem C5_only_notfound_filtered :
    (∀ (outs : List (Except PyExc (List RR))) (W : List Name),
      (∀ o ∈ outs, o = .error .notFoundError ∨ ∃ rs, o = .ok rs) →
      ∃ res, exec_jobs (outs.map job_worker) W = .ok res) ∧
    (∀ (outs : List (Except PyExc (List RR))) (W : List Name),
      (∀ o ∈ outs, o = .error .notFoundError ∨ o = .error .runtimeTimeout ∨
        ∃ rs, o = .ok rs) →
      (.error .runtimeTimeout) ∈ outs →
      exec_jobs (outs.map job_worker) W = .error .runtimeTimeout) :=
  ⟨fun outs W h => exec_jobs_go_benign outs W [] h,
   fun outs W h hmem => exec_jobs_go_timeout outs W [] h hmem⟩

/-- C5 witness: a batch of one success and one NXDOMAIN completes with
the success kept; adding a timeout outcome aborts the batch. -/
theorem C5_only_notfound_filtered_witness :
    (∃ res, exec_jobs ([.ok [("a.x".data, "9.9.9.9".data)],
        .error .notFoundError].map job_worker) [] = .ok res) ∧
      exec_jobs ([.ok [("a.x".data, "9.9.9.9".data)], .error .runtimeTimeout,
        .error .notFoundError].map job_worker) [] =
        .error .runtimeTimeout := by
  constructor
  · exact C5_only_notfound_filtered.1 _ [] (by
      intro o ho
      simp only [List.mem_cons, List.not_mem_nil, or_false] at ho
      rcases ho with rfl | rfl
      · exact Or.inr ⟨_, rfl⟩
      · exact Or.inl rfl)
  · exact C5_only_notfound_filtered.2 _ [] (by
      intro o ho
      simp only [List.mem_cons, List.not_mem_nil, or_false] at ho
      rcases ho with rfl | rfl | rfl
      · exact Or.inr (Or.inr ⟨_, rfl⟩)
      · exact Or.inr (Or.inl rfl)
      · exact Or.inl rfl) (by simp)

/-- The resolver of the C5 counterexample scan: `a.x` resolves, `b.x`
times out, everything else (including the wildcard probe) is NXDOMAIN. -/
def resolveCex (f : Name) : Except PyExc (List RR) :=
  if f = "a.x".data then .ok [("a.x".data, "9.9.9.9".data)]
  else if f = "b.x".data then .error .runtimeTimeout
  else .error .notFoundError

/-- C5 counterexample: scanning `x` with wordlist `["a","b"]`, depth 1 and
two threads against `resolveCex` aborts the whole scan with the timeout
RuntimeError — the timed-out candidate is not filtered out and the scan
does not continue to completion, contradicting the claim. -/
theorem C5_counterexample_timeout_aborts_scan :
    scan_subdomains_model resolveCex "x".data wl2 1 2 10 =
      .error .runtimeTimeout := by decide

/-- C6: wildcard filtering.  (1) A not-found wildcard probe yields the
empty exclusion set (main.py lines 36-37).  (2) A candidate whose address
set equals the exclusion set extensionally is dropped from the hits.
(3) A candidate with an address outside the exclusion set — in particular
one resolving to a proper superset — is kept.  (4) With the empty
exclusion set, set equality never fires for a non-empty record list, so no
candidate is excluded by wildcard filtering. -/
theorem C6_wildcard_exclusion :
    (wildcard_addrs (.error .notFoundError) = .ok []) ∧
    (∀ (rs : List RR) (S : List Name),
      (∀ x, x ∈ rs.map Prod.snd ↔ x ∈ S) →
      exec_jobs [.ok (some rs)] S = .ok []) ∧
    (∀ (rs : List RR) (S : List Name) (a : Name),
      a ∈ rs.map Prod.snd → a ∉ S →
      exec_jobs [.ok (some rs)] S = .ok [rs]) ∧
    (∀ rs : List RR, rs ≠ [] → exec_jobs [.ok (some rs)] [] = .ok [rs]) := by
  refine ⟨rfl, ?_, ?_, ?_⟩
  · intro rs S h
    by_cases h0 : rs.length = 0
    · simp [exec_jobs, exec_jobs_go, Bind.bind, Except.bind, h0]
    · have hw : sameSetB (rs.map Prod.snd) S = true := by
        simp only [sameSetB, Bool.and_eq_true, List.all_eq_true,
          decide_eq_true_eq]
        exact ⟨fun x hx => (h x).mp hx, fun y hy => (h y).mpr hy⟩
      simp [exec_jobs, exec_jobs_go, Bind.bind, Except.bind, h0, hw]
  · intro rs S a ha hna
    have h0 : rs.length ≠ 0 := by
      intro hl
      rw [List.length_eq_zero] at hl
      subst hl
      simp at ha
    have hw : sameSetB (rs.map Prod.snd) S = false := by
      simp only [sameSetB, Bool.and_eq_false_iff]
      left
      simp only [List.all_eq_false, decide_eq_true_eq]
      exact ⟨a, ha, hna⟩
    simp [exec_jobs, exec_jobs_go, Bind.bind, Except.bind, h0, hw]
  · intro rs hne
    obtain ⟨p, ps, rfl⟩ := List.exists_cons_of_ne_nil hne
    have hw : sameSetB (p.2 :: ps.map Prod.snd) [] = false := rfl
    simp [exec_jobs, exec_jobs_go, Bind.bind, Except.bind, hw]

/-- C6 witness: with exclusion set `{1.2.3.4}` a candidate resolving to
exactly `{1.2.3.4}` is dropped, one resolving to `{1.2.3.4, 5.6.7.8}` is
kept; with the empty exclusion set the `{1.2.3.4}` candidate is kept. -/
theorem C6_wildcard_exclusion_witness :
    exec_jobs [.ok (some [("a.x".data, "1.2.3.4".data)])] ["1.2.3.4".data] =
      .ok [] ∧
    exec_jobs [.ok (some [("b.x".data, "1.2.3.4".data),
        ("b.x".data, "5.6.7.8".data)])] ["1.2.3.4".data] =
      .ok [[("b.x".data, "1.2.3.4".data), ("b.x".data, "5.6.7.8".data)]] ∧
    exec_jobs [.ok (some [("a.x".data, "1.2.3.4".data)])] [] =
      .ok [[("a.x".data, "1.2.3.4".data)]] := by
  refine ⟨?_, ?_, ?_⟩
  · exact C6_wildcard_exclusion.2.1 _ _ (fun _ => Iff.rfl)
  · exact C6_wildcard_exclusion.2.2.1 _ _ "5.6.7.8".data (by decide)
      (by decide)
  · exact C6_wildcard_exclusion.2.2.2 _ (by decide)

/-- `s.split('.')` never returns the empty list. -/
theorem pySplitDot_ne_nil (s : Name) : pySplitDot s ≠ [] := by
  induction s with
  | nil => simp [pySplitDot]
  | cons c rest ih =>
    simp only [pySplitDot]
    split
    · simp
    · split
      · simp
      · simp

/-- `'.'.join(s.split('.')) == s`, unconditionally. -/
theorem joinDots_pySplitDot (s : Name) : joinDots (pySplitDot s) = s := by
  induction s with
  | nil => rfl
  | cons c rest ih =>
    obtain ⟨h, t, hr⟩ := List.exists_cons_of_ne_nil (pySplitDot_ne_nil rest)
    by_cases hc : c = '.'
    · subst hc
      rw [joinDots] at ih ⊢
      simp only [pySplitDot, if_pos rfl]
      rw [hr] at ih ⊢
      simpa [joinSep] using ih
    · rw [joinDots] at ih ⊢
      simp only [pySplitDot, if_neg hc]
      rw [hr] at ih ⊢
      cases t with
      | nil => simpa [joinSep] using ih
      | cons t0 ts => simpa [joinSep] using ih

/-- A dot-join of a non-empty list of non-empty labels is non-empty. -/
theorem joinDots_ne_nil (L : List Name) (hne : L ≠ [])
    (h : ∀ l ∈ L, l ≠ []) : joinDots L ≠ [] := by
  obtain ⟨l, ls, rfl⟩ := List.exists_cons_of_ne_nil hne
  cases ls with
  | nil =>
    have := h l (List.mem_cons_self _ _)
    simpa [joinDots, joinSep] using this
  | cons h0 t0 =>
    simp only [joinDots, joinSep]
    cases hl : l with
    | nil => simp
    | cons x xs => simp

/-- UTF-8 of an ASCII character is its single code-point byte. -/
theorem utf8Char_ascii (c : Char) (h : c.toNat < 128) :
    utf8Char c = [c.toNat] := by
  simp [utf8Char, h]

/-- UTF-8 of an all-ASCII string is the bytewise code-point map. -/
theorem pyUtf8_ascii (l : Name) (h : ∀ c ∈ l, c.toNat < 128) :
    pyUtf8 l = l.map Char.toNat := by
  induction l with
  | nil => rfl
  | cons c cs ih =>
    have hc := h c (List.mem_cons_self _ _)
    have hcs := fun x hx => h x (List.mem_cons_of_mem _ hx)
    simp [pyUtf8, utf8Char_ascii c hc] at ih ⊢
    exact ih hcs

/-- Decoding the bytewise code points of an ASCII string restores it. -/
theorem asciiDecode_map (l : Name) (h : ∀ c ∈ l, c.toNat < 128) :
    asciiDecode (l.map Char.toNat) = .ok l := by
  induction l with
  | nil => rfl
  | cons c cs ih =>
    have hc := h c (List.mem_cons_self _ _)
    have hcs := fun x hx => h x (List.mem_cons_of_mem _ hx)
    simp [asciiDecode, hc, ih hcs, Bind.bind, Except.bind]

/-- The byte string the question-label loop produces on success. -/
def encL : List Name → List Nat
  | [] => []
  | l :: ls => l.length :: (pyUtf8 l ++ encL ls)

/-- With all labels within the 255-character assert, `encode_labels`
returns exactly `encL`. -/
theorem encode_labels_eq (L : List Name) (h : ∀ l ∈ L, l.length ≤ 255) :
    encode_labels L = .ok (encL L) := by
  induction L with
  | nil => rfl
  | cons l ls ih =>
    have hl : ¬ l.length > 255 := by
      have := h l (List.mem_cons_self _ _)
      omega
    have := ih (fun x hx => h x (List.mem_cons_of_mem _ hx))
    simp [encode_labels, encL, hl, this, Bind.bind, Except.bind]

/-- Labels below 64 never look like a compression pointer byte. -/
theorem short_len_not_pointer : ∀ n, n < 64 → n &&& 192 = 0 := by decide

/-- One label-reading step of the decoder: at a position holding a
non-pointer length byte for a valid ASCII label, the decoder reads the
label and recurses after it, joining with a dot unless the suffix is
empty. -/
theorem read_label_step (R : List Nat) (l : Name) (rest pre : List Nat)
    (f : Nat) (hne : l ≠ []) (hlen : l.length ≤ 63)
    (hascii : ∀ c ∈ l, c.toNat < 128) :
    read_domain_name R (f + 1)
        (pre ++ l.length :: (l.map Char.toNat ++ rest)) pre.length =
      match read_domain_name R f
          (pre ++ l.length :: (l.map Char.toNat ++ rest))
          (pre.length + 1 + l.length) with
      | .error e => .error e
      | .ok v => if v.1 = [] then .ok (l, v.2)
                 else .ok (l ++ '.' :: v.1, v.2) := by
  have hopt : (pre ++ l.length ::
      (l.map Char.toNat ++ rest))[pre.length]? = some l.length := by
    rw [List.getElem?_append_right (le_refl _)]
    simp
  have hand : l.length &&& 192 = 0 :=
    short_len_not_pointer l.length (by omega)
  have hlz : l.length ≠ 0 := fun h0 => hne (List.length_eq_zero.mp h0)
  have hdrop : (pre ++ l.length ::
      (l.map Char.toNat ++ rest)).drop (pre.length + 1) =
      l.map Char.toNat ++ rest := by
    rw [show pre ++ l.length :: (l.map Char.toNat ++ rest) =
        (pre ++ [l.length]) ++ (l.map Char.toNat ++ rest) by simp,
      show pre.length + 1 = (pre ++ [l.length]).length by simp]
    exact List.drop_left _ _
  have hraw : pySlice (pre ++ l.length :: (l.map Char.toNat ++ rest))
      (pre.length + 1) l.length = l.map Char.toNat := by
    rw [pySlice, hdrop,
      show l.length = (l.map Char.toNat).length by simp]
    exact List.take_left _ _
  have hdec : asciiDecode (l.map Char.toNat) = .ok l :=
    asciiDecode_map l hascii
  cases hr : read_domain_name R f
      (pre ++ l.length :: (l.map Char.toNat ++ rest))
      (pre.length + 1 + l.length) with
  | error e =>
    simp [read_domain_name, listGet, hopt, hand, hlz, hraw, hdec, hr,
      Bind.bind, Except.bind]
  | ok v =>
    by_cases hv : v.1 = []
    · simp [read_domain_name, listGet, hopt, hand, hlz, hraw, hdec, hr, hv,
        Bind.bind, Except.bind]
    · simp [read_domain_name, listGet, hopt, hand, hlz, hraw, hdec, hr, hv,
        Bind.bind, Except.bind]

/-- Decoding the encoded labels of a well-formed name (non-empty ASCII
labels of at most 63 characters), placed at any offset of any buffer,
returns the dot-joined name and the cursor position one past the
terminating zero byte.  The surrounding `R` (the full response passed for
pointer chasing) is irrelevant because no pointer byte occurs. -/
theorem read_encL (R : List Nat) (L : List Name) :
    ∀ (pre post : List Nat) (fuel : Nat),
      (∀ l ∈ L, l ≠ [] ∧ l.length ≤ 63 ∧ ∀ c ∈ l, c.toNat < 128) →
      L.length + 1 ≤ fuel →
      read_domain_name R fuel (pre ++ (encL L ++ 0 :: post)) pre.length =
        .ok (joinDots L, pre.length + (encL L).length + 1) := by
  induction L with
  | nil =>
    intro pre post fuel _ hf
    obtain ⟨f, rfl⟩ : ∃ f, fuel = f + 1 := ⟨fuel - 1, by omega⟩
    have hopt : (pre ++ 0 :: post)[pre.length]? = some 0 := by
      rw [List.getElem?_append_right (le_refl _)]
      simp
    show read_domain_name R (f + 1) (pre ++ ([] ++ 0 :: post)) pre.length = _
    rw [List.nil_append]
    simp [read_domain_name, listGet, hopt, encL, joinDots, joinSep,
      Bind.bind, Except.bind]
  | cons l ls ih =>
    intro pre post fuel h hf
    obtain ⟨f, rfl⟩ : ∃ f, fuel = f + 1 := ⟨fuel - 1, by omega⟩
    obtain ⟨hne, hlen, hascii⟩ := h l (List.mem_cons_self _ _)
    have hls := fun x hx => h x (List.mem_cons_of_mem _ hx)
    have hm : pyUtf8 l = l.map Char.toNat := pyUtf8_ascii l hascii
    have hbuf : pre ++ (encL (l :: ls) ++ 0 :: post) =
        pre ++ l.length :: (l.map Char.toNat ++ (encL ls ++ 0 :: post)) := by
      simp [encL, hm]
    have hrec : read_domain_name R f
        (pre ++ l.length :: (l.map Char.toNat ++ (encL ls ++ 0 :: post)))
        (pre.length + 1 + l.length) =
        .ok (joinDots ls, pre.length + 1 + l.length +
          (encL ls).length + 1) := by
      have h1 := ih (pre ++ l.length :: l.map Char.toNat) post f hls
        (by simp at hf ⊢; omega)
      have e1 : (pre ++ l.length :: l.map Char.toNat) ++
          (encL ls ++ 0 :: post) =
          pre ++ l.length :: (l.map Char.toNat ++ (encL ls ++ 0 :: post)) := by
        simp
      have e2 : (pre ++ l.length :: l.map Char.toNat).length =
          pre.length + 1 + l.length := by
        simp
        omega
      rw [e1, e2] at h1
      exact h1
    rw [hbuf, read_label_step R l (encL ls ++ 0 :: post) pre f hne hlen hascii,
      hrec]
    cases ls with
    | nil =>
      simp [joinDots, joinSep, encL, hm]
      omega
    | cons l2 ls2 =>
      have hjne : joinSep '.' (l2 :: ls2) ≠ [] :=
        joinDots_ne_nil _ (by simp) (fun x hx => (hls x hx).1)
      simp [joinDots, joinSep, encL, hm, hjne]
      omega

/-- C7 (amended): for every domain name whose labels (as split on `.`)
are all non-empty, at most 63 bytes and ASCII, building the question
section and then running the name decoder over those bytes returns
exactly the original dot-joined name, with the cursor one past the
terminating zero byte.  (Names with an empty label — length 0 is allowed
by the claim's "at most 63 bytes" — do not round-trip; see the
counterexample.) -/
theorem C7_encode_decode_roundtrip (domain : Name) (fuel : Nat)
    (h : ∀ l ∈ pySplitDot domain,
      l ≠ [] ∧ l.length ≤ 63 ∧ ∀ c ∈ l, c.toNat < 128)
    (hf : (pySplitDot domain).length + 1 ≤ fuel) :
    ∃ q, encode_name domain = .ok q ∧
      read_domain_name q fuel q 0 = .ok (domain, q.length) := by
  have h255 : ∀ l ∈ pySplitDot domain, l.length ≤ 255 := fun l hl => by
    have := (h l hl).2.1
    omega
  have henc : encode_labels (pySplitDot domain) =
      .ok (encL (pySplitDot domain)) := encode_labels_eq _ h255
  refine ⟨encL (pySplitDot domain) ++ [0], ?_, ?_⟩
  · simp [encode_name, henc, Bind.bind, Except.bind]
  · have h1 := read_encL (encL (pySplitDot domain) ++ [0])
      (pySplitDot domain) [] [] fuel h hf
    simpa [joinDots_pySplitDot] using h1

/-- C7 counterexample: the name `a.` consists of the labels `a` and the
empty label, both at most 63 bytes, yet encode-then-decode returns `a`:
the zero-length label reads as the name terminator, so the original name
does not round-trip. -/
theorem C7_counterexample_empty_label :
    encode_name "a.".data = .ok [1, 97, 0, 0] ∧
      read_domain_name [1, 97, 0, 0] 10 [1, 97, 0, 0] 0 =
        .ok ("a".data, 3) ∧ "a".data ≠ "a.".data := by
  refine ⟨by decide, by decide, by decide⟩

/-- C7 witness: the round trip on the concrete name `ab.c`. -/
theorem C7_roundtrip_witness :
    ∃ q, encode_name "ab.c".data = .ok q ∧
      read_domain_name q 5 q 0 = .ok ("ab.c".data, q.length) :=
  C7_encode_decode_roundtrip "ab.c".data 5 (by decide) (by decide)
